import Mathlib

/-!
# Verification of the Presentation_Annotator slide pipeline and annotation store

Shallow embedding of `src/server/services/presentationService.ts` and
`src/server/storage.ts`.  Strings are modelled as Lean `String`/`List Char`;
the JavaScript regular expressions used by the source are modelled by
explicit scanning functions that reproduce the engine's leftmost-match
semantics for the concrete patterns involved (all of which are
backtracking-free: each `\d+`/`[^<]*` is followed by a character that the
repeated class cannot match, so maximal munch coincides with the regex
semantics).  File-system and database effects are modelled by explicit
inputs (directory listings, archive entry lists) and outputs (the ordered
list of `saveSlide` calls).  Image payloads produced by the two SVG
synthesizers are represented symbolically by the `SlideImage` inductive,
recording exactly the arguments the source passes to each synthesizer; the
placeholder synthesizer itself is additionally embedded byte-for-byte
(template plus base64) for the purity claim.
-/

/-- Literal match: if `p` is a leading literal of `s`, return the remainder.
Models matching a literal fragment of a JS regex at a fixed position. -/
def matchLit : List Char → List Char → Option (List Char)
  | [], s => some s
  | _ :: _, [] => none
  | p :: ps, c :: cs => if p = c then matchLit ps cs else none

/-- Maximal run of decimal digits at the head of the list (greedy `\d+`),
returning the digits and the remainder. -/
def takeDigits : List Char → List Char × List Char
  | [] => ([], [])
  | c :: cs =>
    if c.isDigit then
      let r := takeDigits cs
      (c :: r.1, r.2)
    else ([], c :: cs)

/-- JS `parseInt` on a digit string (the captures below are all-digit). -/
def digitsToNat (ds : List Char) : Nat :=
  ds.foldl (fun n c => n * 10 + (c.toNat - '0'.toNat)) 0

/-- Match `pre (\d+) post` at the current position: the literal `pre`, then a
non-empty greedy digit run, then the literal `post`.  Returns the digit
capture and the remainder after the whole match. -/
def scanNum (pre post s : List Char) : Option (List Char × List Char) :=
  match matchLit pre s with
  | none => none
  | some r =>
    let d := takeDigits r
    if d.1.isEmpty then none
    else
      match matchLit post d.2 with
      | none => none
      | some rest => some (d.1, rest)

/-- Unanchored search for `pre(\d+)post` (JS `String.match` with no `g`
flag): try every start position left to right, return the first capture as a
number. -/
def findNum (pre post : List Char) : List Char → Option Nat
  | [] => none
  | c :: cs =>
    match scanNum pre post (c :: cs) with
    | some (ds, _) => some (digitsToNat ds)
    | none => findNum pre post cs

/-- JS `str.replace(/pre(\d+)post/, '$1')`: replace the first match of the
pattern by its digit capture; if there is no match, leave the string
unchanged. -/
def replaceNumPat (pre post : List Char) : List Char → List Char
  | [] => []
  | c :: cs =>
    match scanNum pre post (c :: cs) with
    | some (ds, rest) => ds ++ rest
    | none => c :: replaceNumPat pre post cs

/-- JS `str.replace(/lit/, '')`: delete the first occurrence of the literal
`pat`. -/
def replaceFirst (pat : List Char) : List Char → List Char
  | [] => []
  | c :: cs =>
    match matchLit pat (c :: cs) with
    | some rest => rest
    | none => c :: replaceFirst pat cs

/-- Number of occurrences of the literal `pat` (JS `match(/lit/g).length`).
The patterns counted in the source (`<p:sldId`) cannot overlap themselves
(the character `<` occurs only at their head), so advancing one character
after a hit counts exactly the `/g` matches. -/
def countOccur (pat : List Char) : List Char → Nat
  | [] => 0
  | c :: cs => (if (matchLit pat (c :: cs)).isSome then 1 else 0) + countOccur pat cs

/-- JS `String.prototype.endsWith` on the character lists. -/
def hasSuffix (suf s : List Char) : Bool :=
  (matchLit suf.reverse s.reverse).isSome

/-- The test `filePath.toLowerCase().endsWith('.pptx')` (the filenames involved are
ASCII, where JS and Lean lower-casing agree). -/
def hasPptxExt (s : String) : Bool :=
  hasSuffix ".pptx".data (s.data.map Char.toLower)

/-- JS `String.prototype.trim` (whitespace stripped from both ends). -/
def jsTrim (s : String) : String :=
  String.mk (((s.data.dropWhile Char.isWhitespace).reverse.dropWhile Char.isWhitespace).reverse)

/-- Code-unit lexicographic order, the default JS `Array.prototype.sort`
comparison used for the `pngFiles` listing. -/
def lexLe : List Char → List Char → Bool
  | [], _ => true
  | _ :: _, [] => false
  | a :: as, b :: bs => if a < b then true else if b < a then false else lexLe as bs

-- A quick sanity check of the scanning machinery.
example : findNum "slide-".data ".png".data "slide-07.png".data = some 7 := by decide
example : findNum "slide-".data ".png".data "slide07.png".data = none := by decide
example : replaceNumPat "slide-".data ".jpg".data "slide-12.jpg".data = "12".data := by decide

/-! ## Slide-number extraction and filename ordering

`getNumber` embeds the comparator helper of `processPresentation`
(presentationService.ts lines 70-82): try `/slide-(\d+)\.png/`, then
`/slide(\d+)\.png/`, then `/(\d+)/`, else 0. -/

/-- The three-pattern slide-number extraction from an image filename. -/
def getNumber (s : String) : Nat :=
  match findNum "slide-".data ".png".data s.data with
  | some n => n
  | none =>
    match findNum "slide".data ".png".data s.data with
    | some n => n
    | none =>
      match findNum [] [] s.data with
      | some n => n
      | none => 0

/-- Comparator of the slide-file sort: ascending by extracted number
(JS `sort((a, b) => getNumber(a) - getNumber(b))`). -/
def byNum (a b : String) : Prop := getNumber a ≤ getNumber b

instance : DecidableRel byNum := fun _ _ => Nat.decLe _ _

instance : IsTotal String byNum := ⟨fun a b => Nat.le_total (getNumber a) (getNumber b)⟩

instance : IsTrans String byNum := ⟨fun _ _ _ => Nat.le_trans⟩

/-- The sort applied to the strategy's image listing.  JS `Array.prototype.
sort` with a consistent comparator returns a permutation of its input that
is sorted by the comparator's key; `insertionSort` is one such sort. -/
def sortByNum (l : List String) : List String := List.insertionSort byNum l

/-- Comparator of presentationService.ts lines 126-130: key is the capture
of `/slide-(\d+)\.png/`, or 0 when the pattern does not match. -/
def byDash (a b : String) : Prop :=
  (findNum "slide-".data ".png".data a.data).getD 0 ≤
    (findNum "slide-".data ".png".data b.data).getD 0

instance : DecidableRel byDash := fun _ _ => Nat.decLe _ _

/-- Default lexicographic sort order (lines 152-154, `.sort()`), as a
proposition. -/
def byLex (a b : String) : Prop := lexLe a.data b.data = true

instance : DecidableRel byLex := fun _ _ => instDecidableEqBool _ _

/-- Comparator of the ImageMagick fallback (lines 263-267): key is
`parseInt(name.replace(/slide-(\d+)\.jpg/, '$1')) || 0`, i.e. the leading
digits of the replaced string (`parseInt` of a non-digit-initial string is
`NaN`, coerced to 0 by `|| 0`). -/
def jpgNum (s : String) : Nat :=
  digitsToNat (takeDigits (replaceNumPat "slide-".data ".jpg".data s.data)).1

def byJpg (a b : String) : Prop := jpgNum a ≤ jpgNum b

instance : DecidableRel byJpg := fun _ _ => Nat.decLe _ _

/-! ## Archive model and slide-count detection -/

/-- One entry of the zip archive (`AdmZip` entry): its name and the text
`readAsText` yields for it.  (Binary media payloads play no role in the
claims and are not modelled.) -/
structure ZipEntry where
  entryName : String
  content : String
deriving DecidableEq, Repr

/-- An opened archive is its entry list; `AdmZip` constructor failures are
modelled by `Option Archive = none` at the use sites. -/
abbrev Archive := List ZipEntry

/-- The test `entry.entryName.match(/ppt\/slides\/slide[0-9]+\.xml/) !== null`
(unanchored).  The source also tests `entry.entryName` for truthiness,
which only excludes the empty name — on which the pattern cannot match
anyway. -/
def pptSlidePat (name : String) : Bool :=
  (findNum "ppt/slides/slide".data ".xml".data name.data).isSome

/-- Sort key of the fallback extractor (lines 445-449): capture of
`/slide([0-9]+)\.xml/`, or 0 when absent. -/
def slideXmlNum (name : String) : Nat :=
  (findNum "slide".data ".xml".data name.data).getD 0

def byXmlNum (a b : ZipEntry) : Prop :=
  slideXmlNum a.entryName ≤ slideXmlNum b.entryName

instance : DecidableRel byXmlNum := fun _ _ => Nat.decLe _ _

/-- Slide-XML entries of the archive, sorted ascending by numeric suffix
(processSlides, lines 439-450). -/
def slideXMLsOf (ar : Archive) : List ZipEntry :=
  List.insertionSort byXmlNum (ar.filter (fun e => pptSlidePat e.entryName))

/-- The detector `getSlideCount` (lines 387-422).  The `filePath` argument is the file
name (for the extension test); the `Option Archive` is what opening the
zip yields (`none` models a throwing `AdmZip` constructor, caught at line
418). -/
def getSlideCount (fileName : String) (archive : Option Archive) : Nat :=
  if ¬ hasPptxExt fileName then 10
  else
    match archive with
    | none => 10
    | some ar =>
      let slideEntries := ar.filter (fun e => pptSlidePat e.entryName)
      if slideEntries.length > 0 then slideEntries.length
      else
        match ar.find? (fun e => e.entryName = "ppt/presentation.xml") with
        | some e =>
          let c := countOccur "<p:sldId".data e.content.data
          if c > 0 then c else 10
        | none => 10

example : getSlideCount "a.PPTX" (some [⟨"ppt/slides/slide2.xml", ""⟩, ⟨"ppt/slides/slide1.xml", ""⟩]) = 2 := by decide
example : getSlideCount "a.pptx" (some [⟨"ppt/presentation.xml", "<p:sldId x><p:sldId y>"⟩]) = 2 := by decide
example : getSlideCount "a.ppt" none = 10 := by decide

/-! ## Text-run extraction (`extractTextFromSlideXML`, lines 534-544) -/

def tagOpen : List Char := "<a:t>".data

def tagClose : List Char := "</a:t>".data

/-- Lazy capture of `/(.*?)<\/a:t>/` right after an `<a:t>`: the shortest
newline-free text followed by the closing literal (JS `.` does not match a
newline; laziness means the first closing tag wins). -/
def lazyCapture : List Char → Option (List Char)
  | [] => none
  | c :: cs =>
    match matchLit tagClose (c :: cs) with
    | some _ => some []
    | none => if c = '\n' then none else (lazyCapture cs).map (fun t => c :: t)

/-- First match of `/<a:t>(.*?)<\/a:t>/`: scan start positions left to
right; at each `<a:t>` attempt the lazy capture, else move on. -/
def findTitle : List Char → Option (List Char)
  | [] => none
  | c :: cs =>
    match matchLit tagOpen (c :: cs) with
    | some rest =>
      match lazyCapture rest with
      | some t => some t
      | none => findTitle cs
    | none => findTitle cs

/-- Greedy `[^<]*`: maximal run of characters other than `<`. -/
def notLt : List Char → List Char × List Char
  | [] => ([], [])
  | c :: cs =>
    if c = '<' then ([], c :: cs)
    else
      let r := notLt cs
      (c :: r.1, r.2)

/-- Match `/<a:t>([^<]*)<\/a:t>/` at the current position, returning the
capture and the remainder after the match.  (`[^<]*` is followed by `<`, so
greedy maximal munch needs no backtracking.) -/
def matchTagAt (s : List Char) : Option (List Char × List Char) :=
  match matchLit tagOpen s with
  | none => none
  | some r =>
    let d := notLt r
    match matchLit tagClose d.2 with
    | none => none
    | some rest => some (d.1, rest)

/-- All matches of `/<a:t>([^<]*)<\/a:t>/g`, as the full matched strings
(JS `String.match` with `/g` returns full matches): scan left to right,
resuming after each match.  The fuel argument bounds the iteration count;
every step consumes at least one input character, so `s.length` fuel is
exhaustive. -/
def allTagsGo : Nat → List Char → List (List Char)
  | 0, _ => []
  | _ + 1, [] => []
  | fuel + 1, c :: cs =>
    match matchTagAt (c :: cs) with
    | some (t, rest) => (tagOpen ++ t ++ tagClose) :: allTagsGo fuel rest
    | none => allTagsGo fuel cs

def allTags (s : List Char) : List (List Char) := allTagsGo s.length s

/-- JS `match.replace(/<a:t>/, '').replace(/<\/a:t>/, '')`: a full `/g` match
stripped of its first `<a:t>` and first `</a:t>` occurrence. -/
def stripRun (m : List Char) : List Char :=
  replaceFirst tagClose (replaceFirst tagOpen m)

/-- The text runs: each full `/g` match, stripped. -/
def textRuns (xml : String) : List String :=
  (allTags xml.data).map (fun m => String.mk (stripRun m))

/-- The extractor `extractTextFromSlideXML` (lines 534-544): the title is
`slideXML.match(/<a:t>(.*?)<\/a:t>/)?.[1] || 'Slide Title'` — the first
lazy `<a:t>` capture, except that JS `||` replaces a falsy capture by the
default, so both a missing match and an EMPTY first capture yield the
literal default; content is every text run whose trim is non-empty and
which differs from the title. -/
def extractTextFromSlideXML (xml : String) : String × List String :=
  let title :=
    match findTitle xml.data with
    | some t => if t = [] then "Slide Title" else String.mk t
    | none => "Slide Title"
  let content := (textRuns xml).filter (fun t => 0 < (jsTrim t).length ∧ t ≠ title)
  (title, content)

example : extractTextFromSlideXML "<a:t>Hi</a:t><p/><a:t>There</a:t><a:t> </a:t>" =
    ("Hi", ["There"]) := by decide
example : extractTextFromSlideXML "" = ("Slide Title", []) := by decide
example : extractTextFromSlideXML "<a:t></a:t><a:t>Slide Title</a:t>" =
    ("Slide Title", []) := by decide
example : extractTextFromSlideXML "<a:t>A</a:t><a:t>B</a:t><a:t>A</a:t>" =
    ("A", ["B"]) := by decide

/-! ## The fallback extractor (`processSlides`, lines 425-531)

A persisted slide is the pair passed to `storage.saveSlide` (sequence
number, image).  The image payload is represented symbolically: `.file f`
is the base64 of the produced image file named `f`; `.rich n total title
content` records the arguments `createRichSlideVisualization` is called
with (the embedded-image resolution of `findImagesInPresentation` feeds
only the SVG bytes and no claim depends on it, so it is elided);
`.placeholder n total` records the arguments of `createPlaceholderImage`,
whose byte-level embedding appears further below for the purity claim.
Slide UUIDs and the presentation id are environmental constants and are
not carried. -/

inductive SlideImage where
  | file (filename : String)
  | rich (n total : Nat) (title : String) (content : List String)
  | placeholder (n total : Nat)
deriving DecidableEq, Repr

/-- One loop body of processSlides step 2 (lines 465-491): the slide at
position `i` (0-based) is rendered from its XML text and saved with
sequence number `i + 1`. -/
def renderSlide (xml : String) (n total : Nat) : SlideImage :=
  let t := extractTextFromSlideXML xml
  .rich n total t.1 t.2

/-- The bulk fallback `createFallbackSlides` (lines 500-524): re-open the archive, count the
slide-XML entries, emit that many placeholders (or 10 when none or when
the archive cannot be opened — the catch at line 517). -/
def createFallbackSlides (archive : Option Archive) : List (Nat × SlideImage) :=
  match archive with
  | none => (List.range 10).map (fun i => (i + 1, .placeholder (i + 1) 10))
  | some ar =>
    let n := (ar.filter (fun e => pptSlidePat e.entryName)).length
    let total := if n > 0 then n else 10
    (List.range total).map (fun i => (i + 1, .placeholder (i + 1) total))

/-- The extraction loop with its surrounding try/catch: entry `i` throws
when `failAt = some i` (modelling any exception in lines 465-491 —
`readAsText`, rendering, or the database write), upon which the catch at
line 492 appends the `createFallbackSlides` output `fb` after the slides
already persisted. -/
def slidesLoop (total : Nat) (failAt : Option Nat) (fb : List (Nat × SlideImage)) :
    List ZipEntry → Nat → List (Nat × SlideImage)
  | [], _ => []
  | e :: rest, i =>
    if failAt = some i then fb
    else (i + 1, renderSlide e.content (i + 1) total) :: slidesLoop total failAt fb rest (i + 1)

/-- The fallback extractor `processSlides` (lines 425-497).  `fileName`/`archive` model
`filePath` and what opening it yields; `totalSlides?` is the optional
`totalSlides` argument (JS `totalSlides || detectedSlideCount` treats both
`undefined` and 0 as absent); `failAt` is the exception oracle of the
loop.  The non-pptx throw at line 433 and a throwing `AdmZip` constructor
both land in the catch, i.e. in `createFallbackSlides`.  Database writes
themselves are modelled as succeeding (their failure is just another
`failAt`). -/
def processSlides (fileName : String) (archive : Option Archive)
    (totalSlides? : Option Nat) (failAt : Option Nat) : List (Nat × SlideImage) :=
  if ¬ hasPptxExt fileName then createFallbackSlides archive
  else
    match archive with
    | none => createFallbackSlides none
    | some ar =>
      let sx := slideXMLsOf ar
      let detected := sx.length
      let actualTotal :=
        match totalSlides? with
        | some t => if t = 0 then detected else t
        | none => detected
      if detected = 0 then
        [(1, .placeholder 1 (if actualTotal > 0 then actualTotal else 1))]
      else
        slidesLoop actualTotal failAt (createFallbackSlides (some ar)) sx 0

/-! ## The orchestrator (`processPresentation`, lines 12-326)

The environment collects the outcomes of every external effect the
function consults: whether `storage.createPresentation` throws
(representing the catastrophic failures that reach the outer catch),
whether the two `soffice` invocations throw, whether the exported PDF
exists, whether `pdftoppm` / `convert` throw, and the scratch-directory
listings the conversions produce.  The result records whether the call
returned normally (`ok`), whether the temporary upload file was deleted
(`tempCleaned`, lines 302-309 / 316-322), and the sequence of `saveSlide`
calls. -/

structure PEnv where
  fileName : String
  archive : Option Archive
  createThrows : Bool
  sofficeThrows : Bool
  pdfExists : Bool
  pdftoppmThrows : Bool
  listing : List String
  convertThrows : Bool
  jpgListing : List String
  failAt : Option Nat
deriving Repr

structure PResult where
  ok : Bool
  tempCleaned : Bool
  persisted : List (Nat × SlideImage)
deriving DecidableEq, Repr

/-- Outcome of the first try block (lines 35-177). -/
inductive Strat1Out where
  | thrown
  | earlyReturn (ps : List (Nat × SlideImage))
  | fell (ps : List (Nat × SlideImage))
deriving DecidableEq, Repr

/-- Lines 122-174: the re-scan of the images directory for
`/slide-(\d+)\.png/` files, then for arbitrary `.png` files under the
default lexicographic sort. -/
def afterCheck (dir : List String) : Strat1Out :=
  let files := List.insertionSort byDash
    (dir.filter (fun f => (findNum "slide-".data ".png".data f.data).isSome))
  if ¬ files.isEmpty then
    .fell (files.enum.map (fun p => (p.1 + 1, SlideImage.file p.2)))
  else
    let pngFiles := List.insertionSort byLex (dir.filter (fun f => hasSuffix ".png".data f.data))
    if ¬ pngFiles.isEmpty then
      .fell (pngFiles.enum.map (fun p => (p.1 + 1, SlideImage.file p.2)))
    else .fell []

/-- The first try block (lines 35-177): soffice export, `pdftoppm` at 150
dpi, the sorted `.png` listing, and — when that listing is non-empty — the
persist loop followed by the early `return presentationId` at line 118.
A throwing tool lands in the catch at line 175.  When the PDF was never
produced or no slide files were found, control reaches the secondary scan
of lines 122-174 (the directory then holds exactly the `pdftoppm` output,
or nothing). -/
def strat1 (env : PEnv) : Strat1Out :=
  if env.sofficeThrows then .thrown
  else if env.pdfExists then
    if env.pdftoppmThrows then .thrown
    else
      let slideFiles := sortByNum (env.listing.filter (fun f => hasSuffix ".png".data f.data))
      if ¬ slideFiles.isEmpty then
        .earlyReturn (slideFiles.enum.map (fun p => (p.1 + 1, SlideImage.file p.2)))
      else afterCheck env.listing
  else afterCheck []

/-- The second try block (lines 180-294): the same PDF export, `pdftoppm`
without the dpi flag, and the ImageMagick `convert` fallback to
`slide-%d.jpg` files when `pdftoppm` throws.  Returns the slides it
persists (empty means `success` stayed false; all throws are caught
locally). -/
def secondTry (env : PEnv) : List (Nat × SlideImage) :=
  if env.sofficeThrows then []
  else if ¬ env.pdfExists then []
  else if ¬ env.pdftoppmThrows then
    let images := sortByNum (env.listing.filter (fun f => hasSuffix ".png".data f.data))
    images.enum.map (fun p => (p.1 + 1, SlideImage.file p.2))
  else if env.convertThrows then []
  else
    let images := List.insertionSort byJpg
      (env.jpgListing.filter (fun f => (findNum "slide-".data ".jpg".data f.data).isSome))
    images.enum.map (fun p => (p.1 + 1, SlideImage.file p.2))

/-- Lines 180-311: everything after the first try block when it did not
return: the second strategy, the fallback extractor when still
unsuccessful, then the temp-file cleanup and the normal return. -/
def continueAfter (env : PEnv) : PResult :=
  let ps2 := secondTry env
  if ¬ ps2.isEmpty then { ok := true, tempCleaned := true, persisted := ps2 }
  else
    let fb := processSlides env.fileName env.archive
      (some (getSlideCount env.fileName env.archive)) env.failAt
    { ok := true, tempCleaned := true, persisted := fb }

/-- The orchestrator `processPresentation` (lines 12-326).  The outer catch (lines
312-325) deletes the temporary file and re-raises; the early return at
line 118 leaves the function without reaching the cleanup at lines
302-309. -/
def processPresentation (env : PEnv) : PResult :=
  if env.createThrows then { ok := false, tempCleaned := true, persisted := [] }
  else
    match strat1 env with
    | .earlyReturn ps => { ok := true, tempCleaned := false, persisted := ps }
    | .thrown => continueAfter env
    | .fell ps =>
      if ¬ ps.isEmpty then { ok := true, tempCleaned := true, persisted := ps }
      else continueAfter env

/-! ## The annotation store (`src/server/storage.ts`)

The primary relational store is modelled by its two tables as row lists.
`JSON.stringify`/`JSON.parse` round-trip the tag list, so tags are stored
directly.  The best-effort SQLite mirror writes are swallowed on failure
(lines 54-57, 97-100) and no claim concerns the mirror, so it is not
modelled. -/

structure Tag where
  key : String
  value : String
deriving DecidableEq, Repr

structure SlideRow where
  presentationId : String
  slideId : String
  slideNumber : Nat
  image : String
deriving DecidableEq, Repr

structure AnnRow where
  slideId : String
  presentationId : String
  tags : List Tag
deriving DecidableEq, Repr

structure DB where
  slides : List SlideRow
  annotations : List AnnRow
deriving DecidableEq, Repr

/-- The lookup `storage.getSlide` (lines 67-71): first slide row with the given
`slide_id`. -/
def getSlide (db : DB) (sid : String) : Option SlideRow :=
  db.slides.find? (fun s => s.slideId = sid)

/-- The upsert `storage.saveAnnotations` (lines 73-102): delete every annotation row
of the slide, then — only when the new tag list is non-empty — look the
slide up (throwing `"Slide not found"` when absent) and insert one fresh
row.  The delete is issued before the lookup, so the returned state
reflects it even on the error path; the error, if any, accompanies the
state. -/
def saveAnnotations (db : DB) (sid : String) (tags : List Tag) : DB × Option String :=
  let db1 : DB := { db with annotations := db.annotations.filter (fun a => ¬ a.slideId = sid) }
  if tags.length > 0 then
    match getSlide db1 sid with
    | none => (db1, some "Slide not found")
    | some s =>
      ({ db1 with annotations := db1.annotations ++ [⟨sid, s.presentationId, tags⟩] }, none)
  else (db1, none)

/-- The query `storage.getAnnotations` (lines 104-117): the rows of the
presentation, folded into a record keyed by `slide_id` (a later row
overwrites an earlier one, hence the lookup returns the last matching
row's tags). -/
def getAnnotations (db : DB) (pid : String) : String → Option (List Tag) :=
  fun sid =>
    (((db.annotations.filter (fun a => a.presentationId = pid)).filter
        (fun a => a.slideId = sid)).getLast?).map (fun a => a.tags)

/-! ## The placeholder synthesizer (`createPlaceholderImage`, lines 765-815)

Embedded byte-for-byte: the SVG template with the two interpolated
numbers, then base64 of its bytes (the template and the decimal digit
strings are ASCII, where UTF-8 bytes equal code points). -/

def base64Table : List Char :=
  "ABCDEFGHIJKLMNOPQRSTUVWXYZabcdefghijklmnopqrstuvwxyz0123456789+/".data

def b64Char (n : Nat) : Char := base64Table.getD n 'A'

/-- Standard base64 with padding, three input bytes at a time. -/
def base64Encode : List Nat → List Char
  | [] => []
  | [a] => [b64Char (a / 4), b64Char (a % 4 * 16), '=', '=']
  | [a, b] => [b64Char (a / 4), b64Char (a % 4 * 16 + b / 16), b64Char (b % 16 * 4), '=']
  | a :: b :: c :: rest =>
    b64Char (a / 4) :: b64Char (a % 4 * 16 + b / 16) ::
      b64Char (b % 16 * 4 + c / 64) :: b64Char (c % 64) :: base64Encode rest

/-- JS `Buffer.from(string).toString("base64")` for the ASCII strings at
hand. -/
def toBase64 (s : String) : String :=
  String.mk (base64Encode (s.data.map Char.toNat))

example : toBase64 "Man" = "TWFu" := by decide
example : toBase64 "hello!" = "aGVsbG8h" := by decide
example : toBase64 "hi" = "aGk=" := by decide

/-- The template text before `${slideNumber} / ${totalSlides}`. -/
def phPart1 : String := r##"<?xml version="1.0" encoding="UTF-8" standalone="no"?>
  <svg width="800" height="600" xmlns="http://www.w3.org/2000/svg">
    <!-- Background with gradient -->
    <defs>
      <linearGradient id="slideGradient" x1="0%" y1="0%" x2="0%" y2="100%">
        <stop offset="0%" style="stop-color:#f0f4ff;stop-opacity:1" />
        <stop offset="100%" style="stop-color:#e0e8ff;stop-opacity:1" />
      </linearGradient>
    </defs>
    <rect width="800" height="600" fill="url(#slideGradient)"/>
    
    <!-- Slide border -->
    <rect width="798" height="598" x="1" y="1" fill="none" stroke="#dddddd" stroke-width="2"/>
    
    <!-- Slide number -->
    <text x="750" y="30" font-family="Arial" font-size="14" text-anchor="end" fill="#666666">
      "##

/-- Between the slide-number footer and `Slide ${slideNumber}` in the
title banner. -/
def phPart2 : String := r##"
    </text>
    
    <!-- Title area with background -->
    <rect x="0" y="40" width="800" height="70" fill="#4a86e8" opacity="0.8"/>
    <text x="50" y="85" font-family="Arial" font-size="28" font-weight="bold" fill="white">
      Slide "##

/-- Between the title banner and `PowerPoint Slide ${slideNumber}`. -/
def phPart3 : String := r##"
    </text>
    
    <!-- Center content area with placeholder message -->
    <rect x="150" y="200" width="500" height="200" rx="8" ry="8" fill="#f9f9f9" stroke="#dddddd" stroke-width="1"/>
    <text x="400" y="270" font-family="Arial" font-size="22" text-anchor="middle" fill="#333333" font-weight="bold">
      PowerPoint Slide "##

/-- Between the center message and the branding `Slide ${slideNumber}`. -/
def phPart4 : String := r##"
    </text>
    <text x="400" y="310" font-family="Arial" font-size="16" text-anchor="middle" fill="#666666">
      This slide will display content from your presentation
    </text>
    <text x="400" y="340" font-family="Arial" font-size="16" text-anchor="middle" fill="#666666">
      You can add annotations using the form on the right
    </text>
    
    <!-- Logo/branding element -->
    <rect x="350" y="500" width="100" height="40" rx="20" ry="20" fill="#4a86e8"/>
    <text x="400" y="525" font-family="Arial" font-size="18" text-anchor="middle" fill="white" font-weight="bold">
      Slide "##

/-- The template tail. -/
def phPart5 : String := r##"
    </text>
  </svg>
  "##

/-- The synthesizer `createPlaceholderImage` (lines 765-815): the SVG template with the
slide number and total interpolated, base64-encoded. -/
def createPlaceholderImage (slideNumber totalSlides : Nat) : String :=
  toBase64 (phPart1 ++ toString slideNumber ++ " / " ++ toString totalSlides ++
    phPart2 ++ toString slideNumber ++ phPart3 ++ toString slideNumber ++
    phPart4 ++ toString slideNumber ++ phPart5)

/-! ## Auxiliary lemmas -/

theorem matchLit_mem {p s r : List Char} (h : matchLit p s = some r) : ∀ c ∈ r, c ∈ s := by
  induction p generalizing s with
  | nil =>
    simp only [matchLit, Option.some.injEq] at h
    subst h; exact fun c hc => hc
  | cons p ps ih =>
    cases s with
    | nil => simp [matchLit] at h
    | cons c cs =>
      simp only [matchLit] at h
      split at h
      · exact fun d hd => List.mem_cons_of_mem _ (ih h d hd)
      · exact absurd h (by simp)

theorem takeDigits_nil_of_nodigit {l : List Char} (h : ∀ c ∈ l, c.isDigit = false) :
    (takeDigits l).1 = [] := by
  cases l with
  | nil => rfl
  | cons c cs => simp [takeDigits, h c (List.mem_cons_self c cs)]

theorem scanNum_none_of_nodigit {pre post s : List Char}
    (h : ∀ c ∈ s, c.isDigit = false) : scanNum pre post s = none := by
  unfold scanNum
  cases hm : matchLit pre s with
  | none => rfl
  | some r =>
    have : (takeDigits r).1 = [] :=
      takeDigits_nil_of_nodigit (fun c hc => h c (matchLit_mem hm c hc))
    simp [this]

theorem findNum_none_of_nodigit {pre post : List Char} :
    ∀ {s : List Char}, (∀ c ∈ s, c.isDigit = false) → findNum pre post s = none := by
  intro s
  induction s with
  | nil => intro _; rfl
  | cons c cs ih =>
    intro h
    simp only [findNum]
    rw [scanNum_none_of_nodigit h]
    exact ih (fun d hd => h d (List.mem_cons_of_mem _ hd))

/-- A list sorted weakly by a key is determined, among the permutations of
a list sorted strictly by that key, by that strictly sorted list. -/
theorem sorted_key_perm_eq {α : Type} (key : α → Nat) :
    ∀ (c l : List α), l.Perm c → l.Pairwise (fun a b => key a ≤ key b) →
      c.Pairwise (fun a b => key a < key b) → l = c := by
  intro c
  induction c with
  | nil =>
    intro l hp _ _
    exact hp.eq_nil
  | cons a c' ih =>
    intro l hp hsl hsc
    cases l with
    | nil => exact absurd hp.symm.eq_nil (by simp)
    | cons b l' =>
      have hba : b = a := by
        by_contra hne
        have hbmem : b ∈ a :: c' := hp.mem_iff.mp (List.mem_cons_self b l')
        have hbc' : b ∈ c' := by
          rcases List.mem_cons.mp hbmem with h | h
          · exact absurd h hne
          · exact h
        have hamem : a ∈ b :: l' := hp.mem_iff.mpr (List.mem_cons_self a c')
        have hal' : a ∈ l' := by
          rcases List.mem_cons.mp hamem with h | h
          · exact absurd h.symm hne
          · exact h
        have h1 : key a < key b := (List.pairwise_cons.mp hsc).1 b hbc'
        have h2 : key b ≤ key a := (List.pairwise_cons.mp hsl).1 a hal'
        omega
      subst hba
      have hp' : List.Perm l' c' := hp.cons_inv
      rw [ih l' hp' (List.pairwise_cons.mp hsl).2 (List.pairwise_cons.mp hsc).2]

theorem slidesLoop_none_numbers (total : Nat) (fb : List (Nat × SlideImage)) :
    ∀ (entries : List ZipEntry) (i : Nat),
      (slidesLoop total none fb entries i).map Prod.fst = List.range' (i + 1) entries.length := by
  intro entries
  induction entries with
  | nil => intro i; rfl
  | cons e rest ih =>
    intro i
    simp only [slidesLoop]
    rw [if_neg (fun h => Option.noConfusion h)]
    simp only [List.map_cons, List.length_cons, List.range'_succ, ih (i + 1)]

theorem slidesLoop_fail (total : Nat) (fb : List (Nat × SlideImage)) :
    ∀ (entries : List ZipEntry) (i j : Nat), i ≤ j → j < i + entries.length →
      slidesLoop total (some j) fb entries i =
        (slidesLoop total none fb entries i).take (j - i) ++ fb := by
  intro entries
  induction entries with
  | nil =>
    intro i j _ h2
    simp only [List.length_nil, Nat.add_zero] at h2
    omega
  | cons e rest ih =>
    intro i j h1 h2
    by_cases hij : j = i
    · subst hij
      simp [slidesLoop]
    · have hlt : i < j := Nat.lt_of_le_of_ne h1 (fun h => hij h.symm)
      have hrw : j - i = (j - (i + 1)) + 1 := by omega
      simp only [slidesLoop]
      rw [if_neg (by simp [hij]), if_neg (fun h => Option.noConfusion h)]
      rw [ih (i + 1) j hlt (by simp only [List.length_cons] at h2; omega)]
      rw [hrw, List.take_succ_cons, List.cons_append]

theorem matchLit_self_append (p x : List Char) : matchLit p (p ++ x) = some x := by
  induction p with
  | nil => rfl
  | cons a as ih => simp [matchLit, ih]

theorem notLt_no_lt : ∀ (s : List Char), ∀ c ∈ (notLt s).1, c ≠ '<' := by
  intro s
  induction s with
  | nil => intro c hc; simp [notLt] at hc
  | cons a as ih =>
    intro c hc
    by_cases ha : a = '<'
    · simp [notLt, ha] at hc
    · simp only [notLt, if_neg ha] at hc
      rcases List.mem_cons.mp hc with h | h
      · exact h ▸ ha
      · exact ih c h

theorem matchTagAt_capture {s t rest : List Char} (h : matchTagAt s = some (t, rest)) :
    ∀ c ∈ t, c ≠ '<' := by
  unfold matchTagAt at h
  cases hm : matchLit tagOpen s with
  | none => rw [hm] at h; exact absurd h (by simp)
  | some r =>
    rw [hm] at h
    dsimp only at h
    cases hc : matchLit tagClose (notLt r).2 with
    | none => rw [hc] at h; exact absurd h (by simp)
    | some rest2 =>
      rw [hc] at h
      simp only [Option.some.injEq, Prod.mk.injEq] at h
      intro c hcm
      exact notLt_no_lt r c (h.1 ▸ hcm)

theorem allTagsGo_shape : ∀ (fuel : Nat) (s : List Char), ∀ m ∈ allTagsGo fuel s,
    ∃ t, m = tagOpen ++ t ++ tagClose ∧ ∀ c ∈ t, c ≠ '<' := by
  intro fuel
  induction fuel with
  | zero => intro s m hm; simp [allTagsGo] at hm
  | succ f ih =>
    intro s m hm
    cases s with
    | nil => simp [allTagsGo] at hm
    | cons c cs =>
      rw [allTagsGo] at hm
      cases hmt : matchTagAt (c :: cs) with
      | some p =>
        obtain ⟨t, rest⟩ := p
        rw [hmt] at hm
        rcases List.mem_cons.mp hm with h | h
        · exact ⟨t, h, matchTagAt_capture hmt⟩
        · exact ih rest m h
      | none =>
        rw [hmt] at hm
        exact ih cs m hm

theorem replaceFirst_at_head {p s r : List Char} (hp : p ≠ []) (h : matchLit p s = some r) :
    replaceFirst p s = r := by
  cases s with
  | nil =>
    cases p with
    | nil => exact absurd rfl hp
    | cons a as => exact absurd h (by simp [matchLit])
  | cons c cs => simp [replaceFirst, h]

theorem replaceFirst_close (t : List Char) (ht : ∀ c ∈ t, c ≠ '<') :
    replaceFirst tagClose (t ++ tagClose) = t := by
  induction t with
  | nil =>
    have h0 : matchLit tagClose tagClose = some [] := by
      have := matchLit_self_append tagClose []
      rwa [List.append_nil] at this
    simpa using replaceFirst_at_head (p := tagClose) (by decide) h0
  | cons c cs ih =>
    have hc : c ≠ '<' := ht c (List.mem_cons_self c cs)
    have hml : matchLit tagClose (c :: (cs ++ tagClose)) = none := by
      show matchLit ('<' :: "/a:t>".data) (c :: (cs ++ tagClose)) = none
      simp only [matchLit]
      rw [if_neg (fun h => hc h.symm)]
    show replaceFirst tagClose (c :: (cs ++ tagClose)) = c :: cs
    simp only [replaceFirst, hml]
    rw [ih (fun d hd => ht d (List.mem_cons_of_mem _ hd))]

theorem stripRun_wraps (t : List Char) (ht : ∀ c ∈ t, c ≠ '<') :
    stripRun (tagOpen ++ t ++ tagClose) = t := by
  unfold stripRun
  rw [List.append_assoc]
  rw [replaceFirst_at_head (by decide) (matchLit_self_append tagOpen (t ++ tagClose))]
  exact replaceFirst_close t ht

/-! ## The claims -/

/-- C7: the slide number embedded in an image filename is extracted by
trying the dash-delimited, concatenated, then any-digits patterns in that
order of precedence; a filename without any digit yields 0; and the file
list is sorted ascending by the extracted number (so all number-less
filenames tie for first with key 0). -/
theorem getNumber_cascade_and_sort (s : String) (l : List String) :
    (∀ n, findNum "slide-".data ".png".data s.data = some n → getNumber s = n) ∧
    (findNum "slide-".data ".png".data s.data = none →
      ∀ n, findNum "slide".data ".png".data s.data = some n → getNumber s = n) ∧
    (findNum "slide-".data ".png".data s.data = none →
      findNum "slide".data ".png".data s.data = none →
      ∀ n, findNum [] [] s.data = some n → getNumber s = n) ∧
    ((∀ c ∈ s.data, c.isDigit = false) → getNumber s = 0) ∧
    (sortByNum l).Perm l ∧
    (sortByNum l).Sorted byNum := by
  refine ⟨?_, ?_, ?_, ?_, List.perm_insertionSort byNum l, List.sorted_insertionSort byNum l⟩
  · intro n h
    unfold getNumber
    rw [h]
  · intro h1 n h2
    unfold getNumber
    rw [h1, h2]
  · intro h1 h2 n h3
    unfold getNumber
    rw [h1, h2, h3]
  · intro h
    unfold getNumber
    rw [findNum_none_of_nodigit h, findNum_none_of_nodigit h, findNum_none_of_nodigit h]

theorem getNumber_cascade_and_sort_witness :
    getNumber "slide-03.png" = 3 ∧ getNumber "page_9.png" = 9 ∧
    getNumber "cover.png" = 0 ∧ (sortByNum ["b.png", "a.png"]).Sorted byNum := by
  refine ⟨?_, ?_, ?_, (getNumber_cascade_and_sort "x" ["b.png", "a.png"]).2.2.2.2.2⟩
  · exact (getNumber_cascade_and_sort "slide-03.png" []).1 3 (by decide)
  · exact (getNumber_cascade_and_sort "page_9.png" []).2.2.1 (by decide) (by decide) 9 (by decide)
  · exact (getNumber_cascade_and_sort "cover.png" []).2.2.2.1 (by decide)

/-- C8: text extraction returns as title the first text-run capture (with
the fixed default when none matches or the capture is empty, per JS
falsy coercion), and as content exactly those text
runs that are non-blank after trimming and differ from the title; each
run listed by the global tag scan is of the form `<a:t>`, `<`-free text,
`</a:t>`, and stripping recovers that text. -/
theorem extractText_title_and_content_filter (xml : String) :
    (extractTextFromSlideXML xml).1 =
      (match findTitle xml.data with
       | some t => if t = [] then "Slide Title" else String.mk t
       | none => "Slide Title") ∧
    (∀ r, r ∈ (extractTextFromSlideXML xml).2 ↔
      (r ∈ textRuns xml ∧ 0 < (jsTrim r).length ∧
        r ≠ (extractTextFromSlideXML xml).1)) ∧
    (∀ m ∈ allTags xml.data, ∃ t, m = tagOpen ++ t ++ tagClose ∧
      stripRun m = t ∧ ∀ c ∈ t, c ≠ '<') := by
  refine ⟨rfl, ?_, ?_⟩
  · intro r
    have hdef : (extractTextFromSlideXML xml).2 =
        (textRuns xml).filter
          (fun t => decide (0 < (jsTrim t).length ∧ t ≠ (extractTextFromSlideXML xml).1)) := rfl
    rw [hdef, List.mem_filter]
    simp only [decide_eq_true_eq]
  · intro m hm
    obtain ⟨t, hshape, hfree⟩ := allTagsGo_shape _ _ m hm
    exact ⟨t, hshape, by rw [hshape]; exact stripRun_wraps t hfree, hfree⟩

theorem extractText_title_and_content_filter_witness :
    ("World" : String) ∈ (extractTextFromSlideXML "<a:t>Hello</a:t><a:t>World</a:t>").2 ∧
    (extractTextFromSlideXML "<a:t>Hello</a:t><a:t>World</a:t>").1 = "Hello" := by
  constructor
  · exact ((extractText_title_and_content_filter "<a:t>Hello</a:t><a:t>World</a:t>").2.1
      "World").mpr ⟨by decide, by decide, by decide⟩
  · exact (extractText_title_and_content_filter "<a:t>Hello</a:t><a:t>World</a:t>").1.trans
      (by decide)

/-- C9: the placeholder synthesizer is a pure, deterministic function of
the sequence number and the total count: any two invocations with equal
arguments return the same base64 string.  (Purity itself is witnessed by
`createPlaceholderImage` being definable as a plain function of its two
arguments, with no further inputs.) -/
theorem createPlaceholderImage_deterministic (n₁ t₁ n₂ t₂ : Nat)
    (hn : n₁ = n₂) (ht : t₁ = t₂) :
    createPlaceholderImage n₁ t₁ = createPlaceholderImage n₂ t₂ := by
  rw [hn, ht]

theorem createPlaceholderImage_deterministic_witness :
    createPlaceholderImage 3 12 = createPlaceholderImage 3 12 :=
  createPlaceholderImage_deterministic 3 12 3 12 rfl rfl

/-- C10: saving an empty annotation list deletes any annotation rows of
the slide, inserts nothing, and reports no error — the slide-existence
lookup (the `"Slide not found"` throw) is not reached, so this succeeds
even for a `slideId` with no slide row. -/
theorem saveAnnotations_empty_list_deletes_and_succeeds (db : DB) (sid : String) :
    saveAnnotations db sid [] =
      ({ db with annotations := db.annotations.filter (fun a => ¬ a.slideId = sid) }, none) := by
  rfl

/-- C4: when the fallback extractor finds no slide-XML entry in the
archive, it persists exactly one placeholder, numbered 1 out of
`max(count, 1)` where `count` is the slide count handed in by the caller,
and persists nothing else. -/
theorem processSlides_zero_entries_single_placeholder
    (fn : String) (ar : Archive) (t : Nat) (failAt : Option Nat)
    (hext : hasPptxExt fn = true)
    (hzero : ar.filter (fun e => pptSlidePat e.entryName) = []) :
    processSlides fn (some ar) (some t) failAt =
      [(1, SlideImage.placeholder 1 (max t 1))] := by
  have hsx : slideXMLsOf ar = [] := by
    unfold slideXMLsOf
    rw [hzero]
    rfl
  have h1 : (if t = 0 then (0 : Nat) else t) = t := by split <;> omega
  have h2 : (if 0 < t then t else 1) = max t 1 := by split <;> omega
  simp [processSlides, hext, hsx, h1, h2]

/-- Helper: `List.range' 1 n` written through `List.range`. -/
theorem range'_one_eq_map (n : Nat) : List.range' 1 n = (List.range n).map (· + 1) := by
  rw [List.range'_eq_map_range]
  simp [Nat.add_comm]

/-- Helper: projecting the sequence numbers out of an indexed batch. -/
theorem map_fst_range_pairs {β : Type} (g : Nat → β) (n : Nat) :
    ((List.range n).map (fun i => (i + 1, g i))).map Prod.fst = List.range' 1 n := by
  rw [List.map_map, range'_one_eq_map]
  rfl

/-- C1 (amended): the failure policy of the fallback extractor does NOT
discard partial progress.  With no failure it persists exactly N slides
numbered 1..N; the fallback placeholder batch is N placeholders numbered
1..N; but when the loop throws after k rendered slides, the result is
those k slides followed by the whole placeholder batch — k + N rows with
duplicated numbering, not a uniform batch. -/
theorem processSlides_failure_appends_placeholders
    (fn : String) (ar : Archive) (t? : Option Nat) (k : Nat)
    (hext : hasPptxExt fn = true)
    (hN : (slideXMLsOf ar).length ≠ 0) :
    ((processSlides fn (some ar) t? none).map Prod.fst =
      List.range' 1 (slideXMLsOf ar).length) ∧
    ((createFallbackSlides (some ar)).map Prod.fst =
      List.range' 1 (slideXMLsOf ar).length) ∧
    (k < (slideXMLsOf ar).length →
      processSlides fn (some ar) t? (some k) =
        (processSlides fn (some ar) t? none).take k ++ createFallbackSlides (some ar)) := by
  have hfl : (ar.filter (fun e => pptSlidePat e.entryName)).length =
      (slideXMLsOf ar).length :=
    ((List.perm_insertionSort byXmlNum (ar.filter (fun e => pptSlidePat e.entryName))).length_eq).symm
  have hunfold : ∀ (fa : Option Nat), processSlides fn (some ar) t? fa =
      slidesLoop
        (match t? with
         | some t => if t = 0 then (slideXMLsOf ar).length else t
         | none => (slideXMLsOf ar).length)
        fa (createFallbackSlides (some ar)) (slideXMLsOf ar) 0 := by
    intro fa
    unfold processSlides
    rw [if_neg (by simp [hext])]
    dsimp only
    rw [if_neg hN]
  refine ⟨?_, ?_, ?_⟩
  · rw [hunfold none, slidesLoop_none_numbers]
  · unfold createFallbackSlides
    dsimp only
    rw [if_pos (by omega)]
    rw [map_fst_range_pairs, hfl]
  · intro hk
    rw [hunfold (some k), hunfold none]
    generalize (match t? with
      | some t => if t = 0 then (slideXMLsOf ar).length else t
      | none => (slideXMLsOf ar).length) = aT
    have := slidesLoop_fail aT (createFallbackSlides (some ar)) (slideXMLsOf ar) 0 k
      (Nat.zero_le k) (by omega)
    rwa [Nat.sub_zero] at this

/-- The archive used by the C1 counterexample: two slide-XML entries. -/
def arTwo : Archive := [⟨"ppt/slides/slide1.xml", ""⟩, ⟨"ppt/slides/slide2.xml", ""⟩]

/-- C1 (counterexample): an archive with N = 2 slide-XML entries whose
extraction throws while processing the second slide ends with THREE
persisted rows — the already-rendered slide 1 followed by the two
placeholders — contradicting the claim that the store then holds exactly
N slides or exactly N placeholders. -/
theorem processSlides_midway_failure_mixture :
    processSlides "deck.pptx" (some arTwo) (some 2) (some 1) =
      [(1, SlideImage.rich 1 2 "Slide Title" []),
       (1, SlideImage.placeholder 1 2), (2, SlideImage.placeholder 2 2)] ∧
    (processSlides "deck.pptx" (some arTwo) (some 2) (some 1)).length ≠ 2 := by
  decide

theorem processSlides_failure_appends_placeholders_witness :
    (processSlides "deck.pptx" (some arTwo) (some 2) none).map Prod.fst =
      List.range' 1 2 ∧
    processSlides "deck.pptx" (some arTwo) (some 2) (some 1) =
      (processSlides "deck.pptx" (some arTwo) (some 2) none).take 1 ++
        createFallbackSlides (some arTwo) := by
  have h := processSlides_failure_appends_placeholders "deck.pptx" arTwo (some 2) 1
    (by decide) (by decide)
  exact ⟨by rw [h.1]; decide, h.2.2 (by decide)⟩

/-- The C2 failing input: the first conversion strategy succeeds (PDF
produced, `pdftoppm` yields one slide image). -/
def envLeak : PEnv :=
  { fileName := "deck.pptx", archive := none, createThrows := false,
    sofficeThrows := false, pdfExists := true, pdftoppmThrows := false,
    listing := ["slide-1.png"], convertThrows := false, jpgListing := [],
    failAt := none }

/-- C2 (code bug): on the path where the first conversion strategy
succeeds, `processPresentation` returns through the early `return` at
line 118, which bypasses the temporary-file cleanup of lines 302-309 —
the call succeeds but the temp upload file is never deleted, contrary to
the stated delete-on-every-exit-path policy (the code does clean up on
the normal tail and in the outer catch). -/
theorem processPresentation_first_strategy_return_skips_cleanup :
    (processPresentation envLeak).ok = true ∧
    (processPresentation envLeak).tempCleaned = false ∧
    (processPresentation envLeak).persisted = [(1, SlideImage.file "slide-1.png")] := by
  decide

/-- The canonical `pdftoppm` output of a ten-page conversion. -/
def canonTen : List String :=
  ["slide-01.png", "slide-02.png", "slide-03.png", "slide-04.png", "slide-05.png",
   "slide-06.png", "slide-07.png", "slide-08.png", "slide-09.png", "slide-10.png"]

/-- A first-strategy environment whose images directory lists `l`. -/
def envTen (l : List String) : PEnv :=
  { fileName := "deck.pptx", archive := none, createThrows := false,
    sofficeThrows := false, pdfExists := true, pdftoppmThrows := false,
    listing := l, convertThrows := false, jpgListing := [], failAt := none }

/-- C3: when the strategy produces exactly the files `slide-01.png` …
`slide-10.png` (listed by the directory in any order), the pipeline
persists ten slides in strictly ascending order 1..10, the i-th sorted
file receiving sequence number i, which equals its dash-delimited numeric
suffix. -/
theorem first_strategy_canonical_ten_ordering (l : List String)
    (hl : l.Perm canonTen) :
    (processPresentation (envTen l)).persisted =
      [(1, SlideImage.file "slide-01.png"), (2, SlideImage.file "slide-02.png"),
       (3, SlideImage.file "slide-03.png"), (4, SlideImage.file "slide-04.png"),
       (5, SlideImage.file "slide-05.png"), (6, SlideImage.file "slide-06.png"),
       (7, SlideImage.file "slide-07.png"), (8, SlideImage.file "slide-08.png"),
       (9, SlideImage.file "slide-09.png"), (10, SlideImage.file "slide-10.png")] ∧
    (processPresentation (envTen l)).persisted.map Prod.fst =
      [1, 2, 3, 4, 5, 6, 7, 8, 9, 10] ∧
    (∀ p ∈ (processPresentation (envTen l)).persisted, ∃ f, p.2 = SlideImage.file f ∧
      findNum "slide-".data ".png".data f.data = some p.1) := by
  have hperm : (l.filter (fun f => hasSuffix ".png".data f.data)).Perm canonTen := by
    have h1 := hl.filter (fun f => hasSuffix ".png".data f.data)
    rw [show canonTen.filter (fun f => hasSuffix ".png".data f.data) = canonTen from by decide]
      at h1
    exact h1
  have hsort : sortByNum (l.filter (fun f => hasSuffix ".png".data f.data)) = canonTen := by
    apply sorted_key_perm_eq getNumber canonTen
    · exact (List.perm_insertionSort byNum _).trans hperm
    · exact List.sorted_insertionSort byNum _
    · decide
  have hstrat : strat1 (envTen l) = .earlyReturn
      (canonTen.enum.map (fun p => (p.1 + 1, SlideImage.file p.2))) := by
    unfold strat1 envTen
    dsimp only
    rw [hsort]
    rfl
  have hpp : processPresentation (envTen l) =
      { ok := true, tempCleaned := false,
        persisted :=
          [(1, SlideImage.file "slide-01.png"), (2, SlideImage.file "slide-02.png"),
           (3, SlideImage.file "slide-03.png"), (4, SlideImage.file "slide-04.png"),
           (5, SlideImage.file "slide-05.png"), (6, SlideImage.file "slide-06.png"),
           (7, SlideImage.file "slide-07.png"), (8, SlideImage.file "slide-08.png"),
           (9, SlideImage.file "slide-09.png"), (10, SlideImage.file "slide-10.png")] } := by
    unfold processPresentation
    rw [hstrat]
    rfl
  rw [hpp]
  refine ⟨rfl, by decide, ?_⟩
  intro p hp
  fin_cases hp <;> exact ⟨_, rfl, by decide⟩

theorem first_strategy_canonical_ten_ordering_witness :
    (processPresentation (envTen canonTen)).persisted.map Prod.fst =
      [1, 2, 3, 4, 5, 6, 7, 8, 9, 10] :=
  (first_strategy_canonical_ten_ordering canonTen (List.Perm.refl canonTen)).2.1

/-- C5: the slide-count detector is total (the model needs no error
outcome: any `AdmZip` failure is the `none` archive, answered with the
default) and always returns a positive integer: the slide-XML match count
when positive, else the `<p:sldId` marker count in `ppt/presentation.xml`
when positive, else — including the non-pptx-extension and unreadable
cases — the fixed default 10. -/
theorem getSlideCount_total_and_positive (fn : String) (ar? : Option Archive) :
    1 ≤ getSlideCount fn ar? ∧
    (hasPptxExt fn = false → getSlideCount fn ar? = 10) ∧
    (∀ ar, ar? = some ar → hasPptxExt fn = true →
      ((ar.filter (fun e => pptSlidePat e.entryName)).length ≠ 0 →
        getSlideCount fn ar? = (ar.filter (fun e => pptSlidePat e.entryName)).length) ∧
      ((ar.filter (fun e => pptSlidePat e.entryName)).length = 0 →
        (∀ pe, ar.find? (fun e => e.entryName = "ppt/presentation.xml") = some pe →
          (countOccur "<p:sldId".data pe.content.data ≠ 0 →
            getSlideCount fn ar? = countOccur "<p:sldId".data pe.content.data) ∧
          (countOccur "<p:sldId".data pe.content.data = 0 → getSlideCount fn ar? = 10)) ∧
        (ar.find? (fun e => e.entryName = "ppt/presentation.xml") = none →
          getSlideCount fn ar? = 10))) ∧
    (ar? = none → getSlideCount fn ar? = 10) := by
  refine ⟨?_, ?_, ?_, ?_⟩
  · unfold getSlideCount
    dsimp only
    repeat' split
    all_goals omega
  · intro h
    unfold getSlideCount
    rw [if_pos (by simp [h])]
  · rintro ar rfl hext
    refine ⟨?_, ?_⟩
    · intro hlen
      unfold getSlideCount
      rw [if_neg (by simp [hext])]
      simp only [if_pos (Nat.pos_of_ne_zero hlen)]
    · intro hlen
      refine ⟨?_, ?_⟩
      · intro pe hpe
        constructor
        · intro hc
          unfold getSlideCount
          rw [if_neg (by simp [hext])]
          simp only [hlen]
          rw [if_neg (by omega), hpe]
          simp only [if_pos (Nat.pos_of_ne_zero hc)]
        · intro hc
          unfold getSlideCount
          rw [if_neg (by simp [hext])]
          simp only [hlen]
          rw [if_neg (by omega), hpe]
          simp only [hc]
          rfl
      · intro hfind
        unfold getSlideCount
        rw [if_neg (by simp [hext])]
        simp only [hlen]
        rw [if_neg (by omega), hfind]
  · rintro rfl
    unfold getSlideCount
    split
    · rfl
    · rfl

theorem getSlideCount_total_and_positive_witness :
    1 ≤ getSlideCount "deck.ppt" none ∧
    getSlideCount "deck.pptx" (some [⟨"ppt/slides/slide1.xml", ""⟩]) = 1 ∧
    getSlideCount "deck.pptx"
      (some [⟨"ppt/presentation.xml", "<p:sldId a/><p:sldId b/><p:sldId c/>"⟩]) = 3 ∧
    getSlideCount "deck.pptx" (some [⟨"ppt/presentation.xml", "no markers"⟩]) = 10 := by
  refine ⟨(getSlideCount_total_and_positive "deck.ppt" none).1, ?_, ?_, ?_⟩
  · exact ((getSlideCount_total_and_positive "deck.pptx"
      (some [⟨"ppt/slides/slide1.xml", ""⟩])).2.2.1
        [⟨"ppt/slides/slide1.xml", ""⟩] rfl (by decide)).1 (by decide)
  · exact ((((getSlideCount_total_and_positive "deck.pptx"
      (some [⟨"ppt/presentation.xml", "<p:sldId a/><p:sldId b/><p:sldId c/>"⟩])).2.2.1
        [⟨"ppt/presentation.xml", "<p:sldId a/><p:sldId b/><p:sldId c/>"⟩] rfl (by decide)).2
        (by decide)).1 ⟨"ppt/presentation.xml", "<p:sldId a/><p:sldId b/><p:sldId c/>"⟩
        (by decide)).1 (by decide)
  · exact ((((getSlideCount_total_and_positive "deck.pptx"
      (some [⟨"ppt/presentation.xml", "no markers"⟩])).2.2.1
        [⟨"ppt/presentation.xml", "no markers"⟩] rfl (by decide)).2
        (by decide)).1 ⟨"ppt/presentation.xml", "no markers"⟩
        (by decide)).2 (by decide)

/-- C6: for a slide that exists and already carries annotations, saving a
new tag set first deletes the old rows and then inserts the new set, so a
subsequent retrieval for the presentation yields exactly the new set for
that slide — no merge with and no remnant of the old set (an empty new
set leaves the slide without any record). -/
theorem saveAnnotations_replaces_existing_set
    (db : DB) (sid pid : String) (tags : List Tag) (s0 : SlideRow)
    (hslide : getSlide db sid = some s0)
    (hpid : s0.presentationId = pid)
    (_hold : ∃ a ∈ db.annotations, a.slideId = sid) :
    (saveAnnotations db sid tags).2 = none ∧
    getAnnotations (saveAnnotations db sid tags).1 pid sid =
      (if tags = [] then none else some tags) := by
  have hdel : ∀ (rows : List AnnRow),
      ((rows.filter (fun a => ¬ a.slideId = sid)).filter
        (fun a => a.presentationId = pid)).filter (fun a => a.slideId = sid) = [] := by
    intro rows
    rw [List.filter_eq_nil_iff]
    intro a ha
    have h1 := (List.mem_filter.mp (List.mem_filter.mp ha).1).2
    intro h2
    simp only [decide_eq_true_eq] at h1 h2
    exact h1 h2
  cases tags with
  | nil =>
    refine ⟨rfl, ?_⟩
    simp only [if_pos rfl]
    unfold saveAnnotations
    simp only [List.length_nil, gt_iff_lt, Nat.lt_irrefl, if_false]
    unfold getAnnotations
    rw [hdel db.annotations]
    rfl
  | cons t ts =>
    have hlen : (t :: ts).length > 0 := by simp
    have hget : getSlide { db with
        annotations := db.annotations.filter (fun a => ¬ a.slideId = sid) } sid = some s0 :=
      hslide
    constructor
    · unfold saveAnnotations
      rw [if_pos hlen, hget]
    · unfold saveAnnotations
      rw [if_pos hlen, hget]
      unfold getAnnotations
      simp only
      rw [List.filter_append, List.filter_append]
      have hrow1 : List.filter (fun a => a.presentationId = pid)
          [(⟨sid, s0.presentationId, t :: ts⟩ : AnnRow)] =
          [(⟨sid, s0.presentationId, t :: ts⟩ : AnnRow)] := by
        simp [List.filter, hpid]
      have hrow2 : List.filter (fun a => a.slideId = sid)
          [(⟨sid, s0.presentationId, t :: ts⟩ : AnnRow)] =
          [(⟨sid, s0.presentationId, t :: ts⟩ : AnnRow)] := by
        simp [List.filter]
      rw [hrow1, hrow2, hdel db.annotations]
      simp

theorem saveAnnotations_replaces_existing_set_witness :
    (saveAnnotations
      ⟨[⟨"p1", "s1", 1, "img"⟩], [⟨"s1", "p1", [⟨"old", "x"⟩]⟩]⟩ "s1"
      [⟨"topic", "intro"⟩]).2 = none ∧
    getAnnotations (saveAnnotations
      ⟨[⟨"p1", "s1", 1, "img"⟩], [⟨"s1", "p1", [⟨"old", "x"⟩]⟩]⟩ "s1"
      [⟨"topic", "intro"⟩]).1 "p1" "s1" =
      (if ([⟨"topic", "intro"⟩] : List Tag) = [] then none
       else some [⟨"topic", "intro"⟩]) :=
  saveAnnotations_replaces_existing_set
    ⟨[⟨"p1", "s1", 1, "img"⟩], [⟨"s1", "p1", [⟨"old", "x"⟩]⟩]⟩ "s1" "p1"
    [⟨"topic", "intro"⟩] ⟨"p1", "s1", 1, "img"⟩ (by decide) (by decide)
    ⟨⟨"s1", "p1", [⟨"old", "x"⟩]⟩, by decide, by decide⟩

theorem processSlides_zero_entries_single_placeholder_witness :
    processSlides "a.pptx" (some [⟨"docProps/app.xml", ""⟩]) (some 7) none =
      [(1, SlideImage.placeholder 1 7)] := by
  have := processSlides_zero_entries_single_placeholder "a.pptx"
    [⟨"docProps/app.xml", ""⟩] 7 none (by decide) (by decide)
  simpa using this
